import Mathlib

/-!
Verification of the event-based risk aggregation pipeline
(`openquake/engine/calculators/risk/event_based/core.py`) and of the hazard
restore tool (`openquake/engine/tools/restore_hazards.py`).

Numeric values are modelled by exact rationals; Python dictionaries keyed by
rupture id are modelled by a finite key set together with a value function.
-/

namespace OQ

/-!
## Event loss tables

`EventBasedRiskCalculator.__init__` sets
`self.event_loss_tables = collections.defaultdict(collections.Counter)` and
`task_completed` runs `self.event_loss_tables[loss_type] += task_loss_table`
for each loss type.  Python 2.7 has no in-place `Counter` addition, so `+=`
is `Counter.__add__`, which keeps a key exactly when the pointwise sum of the
two lookups (a missing key counts as 0) is strictly positive and drops every
other key.
-/

/-- A `collections.Counter`: a finite key set plus the stored value of each
key.  `val` is meaningful only on `keys`; lookups outside `keys` yield 0, as
`Counter.__getitem__` does. -/
@[ext]
structure Counter where
  keys : Finset ℕ
  val : ℕ → ℚ

/-- Dictionary lookup with the `Counter` default: 0 for a missing key. -/
def Counter.get (c : Counter) (x : ℕ) : ℚ := if x ∈ c.keys then c.val x else 0

/-- Python 2.7 `Counter.__add__`: pointwise sum, keeping only the keys whose
sum is strictly positive. -/
def Counter.add (a b : Counter) : Counter where
  keys := (a.keys ∪ b.keys).filter fun x => 0 < a.get x + b.get x
  val := fun x => a.get x + b.get x

/-- `collections.Counter()`, the `defaultdict` initial value. -/
def Counter.empty : Counter := ⟨∅, fun _ => 0⟩

/-- `EventBasedRiskCalculator.task_completed`: merge a completed task's
per-loss-type event loss tables into the running per-loss-type totals.
`log_percent` only logs and is not modelled. -/
def task_completed (loss_types : List String) (state tables : String → Counter) :
    String → Counter :=
  fun lt => if lt ∈ loss_types then (state lt).add (tables lt) else state lt

theorem Counter.get_of_not_mem {c : Counter} {x : ℕ} (h : x ∉ c.keys) :
    c.get x = 0 := by
  rw [Counter.get, if_neg h]

theorem Counter.get_of_mem {c : Counter} {x : ℕ} (h : x ∈ c.keys) :
    c.get x = c.val x := by
  rw [Counter.get, if_pos h]

/-- With non-negative lookups, dropped keys carried value 0, so the lookup of
a sum is the sum of the lookups. -/
theorem Counter.get_add {a b : Counter} (ha : ∀ y, 0 ≤ a.get y)
    (hb : ∀ y, 0 ≤ b.get y) (x : ℕ) :
    (a.add b).get x = a.get x + b.get x := by
  rw [Counter.get]
  split
  · rfl
  · next h =>
    rw [Counter.add] at h
    simp only [Finset.mem_filter, Finset.mem_union, not_and, not_lt] at h
    by_cases hx : x ∈ a.keys ∨ x ∈ b.keys
    · have h0 := h hx
      have h1 := ha x
      have h2 := hb x
      linarith
    · push_neg at hx
      rw [Counter.get_of_not_mem hx.1, Counter.get_of_not_mem hx.2]
      norm_num

theorem Counter.mem_add_keys {a b : Counter} {x : ℕ} :
    x ∈ (a.add b).keys ↔ (x ∈ a.keys ∨ x ∈ b.keys) ∧ 0 < a.get x + b.get x := by
  show x ∈ (a.keys ∪ b.keys).filter _ ↔ _
  rw [Finset.mem_filter, Finset.mem_union]

theorem Counter.add_add_keys (s a b : Counter) (hs : ∀ y, 0 ≤ s.get y)
    (ha : ∀ y, 0 ≤ a.get y) :
    ((s.add a).add b).keys =
      ((s.keys ∪ a.keys) ∪ b.keys).filter
        fun x => 0 < s.get x + a.get x + b.get x := by
  ext x
  rw [Counter.mem_add_keys, Counter.mem_add_keys, Counter.get_add hs ha,
    Finset.mem_filter, Finset.mem_union, Finset.mem_union]
  constructor
  · rintro ⟨hm, hp⟩
    refine ⟨?_, hp⟩
    rcases hm with ⟨hm, _⟩ | hm
    · exact Or.inl hm
    · exact Or.inr hm
  · rintro ⟨hm, hp⟩
    by_cases hbx : x ∈ b.keys
    · exact ⟨Or.inr hbx, hp⟩
    · have hb0 : b.get x = 0 := Counter.get_of_not_mem hbx
      rcases hm with hm | hm
      · exact ⟨Or.inl ⟨hm, by linarith⟩, hp⟩
      · exact absurd hm hbx

theorem Counter.add_add_val (s a b : Counter) (hs : ∀ y, 0 ≤ s.get y)
    (ha : ∀ y, 0 ≤ a.get y) :
    ((s.add a).add b).val = fun x => s.get x + a.get x + b.get x := by
  funext x
  show (s.add a).get x + b.get x = _
  rw [Counter.get_add hs ha]

/-- Claim C4 counterexample data: tables over the single key 1. -/
def cexTable5 : Counter := ⟨{1}, fun _ => 5⟩

/-- Claim C4 counterexample data: a table holding a negative value. -/
def cexTableNeg : Counter := ⟨{1}, fun _ => -10⟩

/-- Claim C4 counterexample data. -/
def cexTable3 : Counter := ⟨{1}, fun _ => 3⟩

/-- Claim C5 counterexample data: a table whose key 1 stores value 0. -/
def cexTableZero : Counter := ⟨{1}, fun _ => 0⟩

/-- Claim C4: as stated over arbitrary tables the merge order is observable,
because `Counter.__add__` silently drops keys whose running sum is not
strictly positive.  Starting from `{1: 5}` and accumulating `{1: -10}` then
`{1: 3}` leaves `{1: 3}`, while the other order leaves the empty table. -/
theorem task_completed_not_comm :
    task_completed ["structural"]
        (task_completed ["structural"] (fun _ => cexTable5) fun _ => cexTableNeg)
        (fun _ => cexTable3) ≠
      task_completed ["structural"]
        (task_completed ["structural"] (fun _ => cexTable5) fun _ => cexTable3)
        (fun _ => cexTableNeg) := by
  intro h
  have h1 := congrArg (fun g => 1 ∈ (g "structural").keys) h
  simp only [task_completed, Counter.add, Counter.get, cexTable5, cexTableNeg,
    cexTable3, List.mem_cons, Finset.mem_filter, Finset.mem_union,
    Finset.mem_singleton, eq_self_iff_true, if_true, if_pos, List.mem_singleton,
    or_false] at h1
  norm_num at h1

/-- Claim C4 (amended): accumulation of event loss tables with non-negative
values (as aggregate losses are) is order-independent:
`task_completed` with tables A then B equals `task_completed` with B then A,
from any starting per-loss-type table with non-negative values. -/
theorem task_completed_comm (loss_types : List String) (S A B : String → Counter)
    (hS : ∀ lt y, 0 ≤ (S lt).get y) (hA : ∀ lt y, 0 ≤ (A lt).get y)
    (hB : ∀ lt y, 0 ≤ (B lt).get y) :
    task_completed loss_types (task_completed loss_types S A) B =
      task_completed loss_types (task_completed loss_types S B) A := by
  funext lt
  unfold task_completed
  by_cases h : lt ∈ loss_types
  · simp only [if_pos h]
    apply Counter.ext
    · rw [Counter.add_add_keys _ _ _ (hS lt) (hA lt),
        Counter.add_add_keys _ _ _ (hS lt) (hB lt)]
      ext x
      simp only [Finset.mem_filter, Finset.mem_union]
      constructor
      · rintro ⟨hm, hp⟩
        exact ⟨by tauto, by linarith⟩
      · rintro ⟨hm, hp⟩
        exact ⟨by tauto, by linarith⟩
    · rw [Counter.add_add_val _ _ _ (hS lt) (hA lt),
        Counter.add_add_val _ _ _ (hS lt) (hB lt)]
      funext x
      ring
  · simp only [if_neg h]

theorem cexTable5_get_nonneg : ∀ y, 0 ≤ cexTable5.get y := by
  intro y
  rw [Counter.get]
  split <;> norm_num [cexTable5]

theorem cexTable3_get_nonneg : ∀ y, 0 ≤ cexTable3.get y := by
  intro y
  rw [Counter.get]
  split <;> norm_num [cexTable3]

theorem empty_get_nonneg : ∀ y, 0 ≤ Counter.empty.get y := by
  intro y
  rw [Counter.get]
  split <;> norm_num [Counter.empty]

/-- Claim C4 witness: the amended commutation law at concrete tables. -/
theorem task_completed_comm_witness :
    task_completed ["structural"]
        (task_completed ["structural"] (fun _ => cexTable5) fun _ => cexTable3)
        (fun _ => Counter.empty) =
      task_completed ["structural"]
        (task_completed ["structural"] (fun _ => cexTable5) fun _ => Counter.empty)
        (fun _ => cexTable3) :=
  task_completed_comm ["structural"] (fun _ => cexTable5) (fun _ => cexTable3)
    (fun _ => Counter.empty) (fun _ => cexTable5_get_nonneg)
    (fun _ => cexTable3_get_nonneg) (fun _ => empty_get_nonneg)

/-- Claim C5: as stated over any table the key set of the merge is not always
the union of the key sets: a key stored with value 0 in the incoming table is
dropped by `Counter.__add__`, so accumulating `{1: 0}` into the fresh empty
table yields an empty key set, not `{1}`. -/
theorem task_completed_keys_not_union :
    (task_completed ["structural"] (fun _ => Counter.empty)
        (fun _ => cexTableZero) "structural").keys ≠
      Counter.empty.keys ∪ cexTableZero.keys := by
  simp only [task_completed, Counter.add, Counter.get, Counter.empty,
    cexTableZero, List.mem_singleton, if_pos, Finset.empty_union]
  intro h
  have h1 := congrArg (fun s => 1 ∈ s) h
  simp only [Finset.mem_filter, Finset.mem_union, Finset.mem_singleton,
    Finset.not_mem_empty] at h1
  norm_num at h1

/-- Claim C5 (amended): when the stored values are strictly positive (as
recorded aggregate losses are), each `task_completed` call makes the key set
of the running table exactly the union of the previous key set and the
incoming table's key set; in particular no key of the previous table ever
disappears. -/
theorem task_completed_keys_union (loss_types : List String)
    (S P : String → Counter) (lt : String) (hmem : lt ∈ loss_types)
    (hS : ∀ x ∈ (S lt).keys, 0 < (S lt).val x)
    (hP : ∀ x ∈ (P lt).keys, 0 < (P lt).val x) :
    (task_completed loss_types S P lt).keys = (S lt).keys ∪ (P lt).keys ∧
      (S lt).keys ⊆ (task_completed loss_types S P lt).keys := by
  have hSnn : ∀ y, 0 ≤ (S lt).get y := by
    intro y
    rw [Counter.get]
    split
    · next hy => exact le_of_lt (hS y hy)
    · norm_num
  have hPnn : ∀ y, 0 ≤ (P lt).get y := by
    intro y
    rw [Counter.get]
    split
    · next hy => exact le_of_lt (hP y hy)
    · norm_num
  have hkeys : (task_completed loss_types S P lt).keys =
      (S lt).keys ∪ (P lt).keys := by
    unfold task_completed
    rw [if_pos hmem]
    show ((S lt).keys ∪ (P lt).keys).filter _ = _
    rw [Finset.filter_eq_self]
    intro x hx
    rcases Finset.mem_union.mp hx with hx' | hx'
    · have : (S lt).get x = (S lt).val x := Counter.get_of_mem hx'
      have h1 := hS x hx'
      have h2 := hPnn x
      rw [this] at *
      linarith
    · have : (P lt).get x = (P lt).val x := Counter.get_of_mem hx'
      have h1 := hP x hx'
      have h2 := hSnn x
      rw [this] at *
      linarith
  exact ⟨hkeys, by rw [hkeys]; exact Finset.subset_union_left⟩

theorem cexTable5_val_pos : ∀ x ∈ cexTable5.keys, 0 < cexTable5.val x := by
  intro x _
  norm_num [cexTable5]

theorem cexTable3_val_pos : ∀ x ∈ cexTable3.keys, 0 < cexTable3.val x := by
  intro x _
  norm_num [cexTable3]

/-- Claim C5 witness: the amended key-set law at concrete tables. -/
theorem task_completed_keys_union_witness :
    (task_completed ["structural"] (fun _ => cexTable5)
          (fun _ => cexTable3) "structural").keys =
        cexTable5.keys ∪ cexTable3.keys ∧
      cexTable5.keys ⊆ (task_completed ["structural"] (fun _ => cexTable5)
          (fun _ => cexTable3) "structural").keys :=
  task_completed_keys_union ["structural"] (fun _ => cexTable5)
    (fun _ => cexTable3) "structural" (List.mem_singleton.mpr rfl)
    cexTable5_val_pos cexTable3_val_pos

/-!
## Disaggregation

`disaggregate` / `disaggregate_site`
(`openquake/engine/calculators/risk/event_based/core.py`, lines 226-278).
The rupture surface geometry (`get_joyner_boore_distance`,
`get_closest_points`) and the `SESRupture` database lookup are external
collaborators; a `Rupture` record carries their values for a given site, and
the id-to-rupture lookup is a function argument.
-/

/-- A site, with `x` the longitude and `y` the latitude, as in
`asset.site`. -/
structure Site where
  x : ℚ
  y : ℚ
deriving DecidableEq

/-- An asset: an identifier plus its site. -/
structure Asset where
  asset_id : ℕ
  site : Site
deriving DecidableEq

/-- Rupture data consumed by `disaggregate_site`.  `jb_distance s` is the
value of `surface.get_joyner_boore_distance(mesh of s)[0]` and
`closest_lon s` / `closest_lat s` the coordinates of
`iter(surface.get_closest_points(mesh of s)).next()`, all products of the
external geometry library. -/
structure Rupture where
  magnitude : ℚ
  jb_distance : Site → ℚ
  closest_lon : Site → ℚ
  closest_lat : Site → ℚ

/-- The calculator parameters used by disaggregation
(`base.make_calc_params` fields relevant here). -/
structure CalcParams where
  sites_disagg : List Site
  mag_bin_width : ℚ
  distance_bin_width : ℚ
  coordinate_bin_width : ℚ

/-- Conversion of a float to an integer by Python 2's `"%d" % x`:
truncation toward zero. -/
def pyInt (q : ℚ) : ℤ := if 0 ≤ q then ⌊q⌋ else -⌊-q⌋

/-- `"%d,%d" % (a, b)`. -/
def pyKey (a b : ℚ) : String := toString (pyInt a) ++ "," ++ toString (pyInt b)

/-- One yielded triple of the generator `disaggregate_site` for a single
rupture: `("%d,%d" % (mag, dist), "%d,%d" % (lon, lat), fraction)` where
`mag = numpy.floor(rupture.magnitude / mag_bin_width)`,
`dist = numpy.floor(get_joyner_boore_distance(...))[0] / distance_bin_width`,
`lon = closest_point.longitude / coordinate_bin_width` and
`lat = closest_point.latitude / coordinate_bin_width`.  `none` models the
exception raised when a bin width is zero (`ZeroDivisionError` for the
magnitude or coordinate division, `OverflowError` when formatting the
infinite numpy quotient for the distance). -/
def disaggregate_site_one (params : CalcParams) (site : Site) (r : Rupture)
    (fraction : ℚ) : Option (String × String × ℚ) :=
  if params.mag_bin_width = 0 ∨ params.distance_bin_width = 0 ∨
      params.coordinate_bin_width = 0 then none
  else
    some (pyKey ((⌊r.magnitude / params.mag_bin_width⌋ : ℤ) : ℚ)
            ((((⌊r.jb_distance site⌋ : ℤ) : ℚ)) / params.distance_bin_width),
          pyKey (r.closest_lon site / params.coordinate_bin_width)
            (r.closest_lat site / params.coordinate_bin_width),
          fraction)

/-- The magnitude-distance key actually emitted by the code. -/
def code_mag_dist_key (params : CalcParams) (site : Site) (r : Rupture) :
    String :=
  toString ⌊r.magnitude / params.mag_bin_width⌋ ++ "," ++
    toString (pyInt (((⌊r.jb_distance site⌋ : ℤ) : ℚ) /
      params.distance_bin_width))

/-- The coordinate key actually emitted by the code. -/
def code_coordinate_key (params : CalcParams) (site : Site) (r : Rupture) :
    String :=
  toString (pyInt (r.closest_lon site / params.coordinate_bin_width)) ++ "," ++
    toString (pyInt (r.closest_lat site / params.coordinate_bin_width))

/-- The magnitude-distance key as claim C1 states it: both components are
floors of the raw quantity divided by the bin width. -/
def claimed_mag_dist_key (params : CalcParams) (site : Site) (r : Rupture) :
    String :=
  toString ⌊r.magnitude / params.mag_bin_width⌋ ++ "," ++
    toString ⌊r.jb_distance site / params.distance_bin_width⌋

/-- The coordinate key as claim C1 states it: floors of the closest point's
coordinates divided by the bin width. -/
def claimed_coordinate_key (params : CalcParams) (site : Site) (r : Rupture) :
    String :=
  toString ⌊r.closest_lon site / params.coordinate_bin_width⌋ ++ "," ++
    toString ⌊r.closest_lat site / params.coordinate_bin_width⌋

theorem pyInt_intCast (n : ℤ) : pyInt (n : ℚ) = n := by
  unfold pyInt
  split
  · exact Int.floor_intCast n
  · rw [← Int.cast_neg, Int.floor_intCast]
    ring

/-- What `disaggregate_site` yields per rupture when no bin width is zero. -/
theorem disaggregate_site_one_eq (params : CalcParams) (site : Site)
    (r : Rupture) (fraction : ℚ) (hm : params.mag_bin_width ≠ 0)
    (hd : params.distance_bin_width ≠ 0)
    (hc : params.coordinate_bin_width ≠ 0) :
    disaggregate_site_one params site r fraction =
      some (code_mag_dist_key params site r, code_coordinate_key params site r,
        fraction) := by
  unfold disaggregate_site_one
  rw [if_neg (by push_neg; exact ⟨hm, hd, hc⟩)]
  unfold pyKey code_mag_dist_key code_coordinate_key
  rw [pyInt_intCast]

/-- The generator `disaggregate_site(site, loss_ratios)`: one triple per
element of `zip(loss_ratios, rupture_ids)`, the rupture being fetched by id
(`models.SESRupture.objects.get(pk=rupture_id)`, modelled by `getR`). -/
def disaggregate_site (getR : ℕ → Rupture) (params : CalcParams)
    (rupture_ids : List ℕ) (site : Site) (losses : List ℚ) :
    Option (List (String × String × ℚ)) :=
  (losses.zip rupture_ids).mapM fun p =>
    disaggregate_site_one params site (getR p.2) p.1

/-- `DisaggregationOutputs` (parallel output arrays). -/
structure DisaggregationOutputs where
  assets_disagg : List Asset
  magnitude_distance : List String
  coordinate : List String
  fractions : List ℚ

/-- `disaggregate(outputs, rupture_ids, params)`: keep the assets whose site
is in `params.sites_disagg`, run `disaggregate_site` on each, repeat each
kept asset `len(rupture_ids)` times, and unzip the matrix into parallel
arrays.  `none` models an exception escaping the function: either a zero bin
width inside `disaggregate_site`, or the `ValueError` raised by unpacking
`zip(*disagg_matrix)` when at least one asset qualified but the matrix is
empty. -/
def disaggregate (getR : ℕ → Rupture) (assets : List Asset)
    (loss_matrix : List (List ℚ)) (rupture_ids : List ℕ)
    (params : CalcParams) : Option DisaggregationOutputs := do
  let qualifying := (assets.zip loss_matrix).filter
    fun p => p.1.site ∈ params.sites_disagg
  let rows ← qualifying.mapM
    fun p => disaggregate_site getR params rupture_ids p.1.site p.2
  let disagg_matrix := rows.flatten
  let assets_disagg := qualifying.flatMap
    fun p => List.replicate rupture_ids.length p.1
  if qualifying.isEmpty then
    pure ⟨[], [], [], []⟩
  else if disagg_matrix.isEmpty then
    none
  else
    pure ⟨assets_disagg, disagg_matrix.map fun t => t.1,
      disagg_matrix.map fun t => t.2.1, disagg_matrix.map fun t => t.2.2⟩

theorem list_mapM_eq_map {α β : Type} (l : List α) (f : α → Option β)
    (g : α → β) (h : ∀ x ∈ l, f x = some (g x)) :
    l.mapM f = some (l.map g) := by
  induction l with
  | nil => rfl
  | cons a t ih =>
    rw [List.mapM_cons, h a (List.mem_cons_self a t),
      ih fun x hx => h x (List.mem_cons_of_mem a hx)]
    rfl

/-- Claim C2: `disaggregate_site` pairs positionally — the fraction at index
i of the asset's loss-ratio row is emitted against the keys of the rupture
whose id sits at index i of `rupture_ids`, i.e. the yielded list is the map
of the zip of the two lists. -/
theorem disaggregate_site_pairs (getR : ℕ → Rupture) (params : CalcParams)
    (rupture_ids : List ℕ) (site : Site) (losses : List ℚ)
    (hm : params.mag_bin_width ≠ 0) (hd : params.distance_bin_width ≠ 0)
    (hc : params.coordinate_bin_width ≠ 0) :
    disaggregate_site getR params rupture_ids site losses =
      some ((losses.zip rupture_ids).map fun p =>
        (code_mag_dist_key params site (getR p.2),
         code_coordinate_key params site (getR p.2), p.1)) := by
  exact list_mapM_eq_map _ _ _ fun p _ =>
    disaggregate_site_one_eq params site (getR p.2) p.1 hm hd hc

/-- Claim C1 (amended): for positive bin widths, the emitted
magnitude-distance key is `floor(magnitude / mag_bin_width)` paired with the
toward-zero truncation of `floor(jb_distance) / distance_bin_width` (the
floor is applied to the distance before dividing), and the emitted
coordinate key is the toward-zero truncations of
`longitude / coordinate_bin_width` and `latitude / coordinate_bin_width`
(truncations, not floors), each pair formatted as two integers joined by a
comma. -/
theorem disaggregate_site_one_keys (params : CalcParams) (site : Site)
    (r : Rupture) (fraction : ℚ) (hm : 0 < params.mag_bin_width)
    (hd : 0 < params.distance_bin_width)
    (hc : 0 < params.coordinate_bin_width) :
    disaggregate_site_one params site r fraction =
      some (code_mag_dist_key params site r, code_coordinate_key params site r,
        fraction) :=
  disaggregate_site_one_eq params site r fraction (ne_of_gt hm) (ne_of_gt hd)
    (ne_of_gt hc)

/-- Claim C1 counterexample data: distance bin width 1/2, a Joyner-Boore
distance of 1.7 and a closest point at longitude -3, latitude 1. -/
def cexParams : CalcParams :=
  { sites_disagg := []
    mag_bin_width := 1
    distance_bin_width := 1/2
    coordinate_bin_width := 2 }

/-- Claim C1 counterexample data. -/
def cexSite : Site := ⟨0, 0⟩

/-- Claim C1 counterexample data. -/
def cexRupture : Rupture :=
  { magnitude := 6
    jb_distance := fun _ => 17/10
    closest_lon := fun _ => -3
    closest_lat := fun _ => 1 }

theorem cex_code_mag_dist_key :
    code_mag_dist_key cexParams cexSite cexRupture = "6,2" := by
  unfold code_mag_dist_key
  have h1 : ⌊cexRupture.magnitude / cexParams.mag_bin_width⌋ = 6 := by
    norm_num [cexRupture, cexParams]
  have h2 : ⌊cexRupture.jb_distance cexSite⌋ = 1 := by
    norm_num [cexRupture]
  have h3 : pyInt (((1 : ℤ) : ℚ) / cexParams.distance_bin_width) = 2 := by
    unfold pyInt
    rw [if_pos (by norm_num [cexParams])]
    norm_num [cexParams]
  rw [h1, h2, h3]
  decide

theorem cex_code_coordinate_key :
    code_coordinate_key cexParams cexSite cexRupture = "-1,0" := by
  unfold code_coordinate_key
  have h1 : pyInt (cexRupture.closest_lon cexSite /
      cexParams.coordinate_bin_width) = -1 := by
    unfold pyInt
    rw [if_neg (by norm_num [cexRupture, cexParams])]
    norm_num [cexRupture, cexParams]
  have h2 : pyInt (cexRupture.closest_lat cexSite /
      cexParams.coordinate_bin_width) = 0 := by
    unfold pyInt
    rw [if_pos (by norm_num [cexRupture, cexParams])]
    norm_num [cexRupture, cexParams]
  rw [h1, h2]
  decide

theorem cex_claimed_mag_dist_key :
    claimed_mag_dist_key cexParams cexSite cexRupture = "6,3" := by
  unfold claimed_mag_dist_key
  have h1 : ⌊cexRupture.magnitude / cexParams.mag_bin_width⌋ = 6 := by
    norm_num [cexRupture, cexParams]
  have h2 : ⌊cexRupture.jb_distance cexSite / cexParams.distance_bin_width⌋ =
      3 := by
    norm_num [cexRupture, cexParams]
  rw [h1, h2]
  decide

theorem cex_claimed_coordinate_key :
    claimed_coordinate_key cexParams cexSite cexRupture = "-2,0" := by
  unfold claimed_coordinate_key
  have h1 : ⌊cexRupture.closest_lon cexSite /
      cexParams.coordinate_bin_width⌋ = -2 := by
    norm_num [cexRupture, cexParams]
  have h2 : ⌊cexRupture.closest_lat cexSite /
      cexParams.coordinate_bin_width⌋ = 0 := by
    norm_num [cexRupture, cexParams]
  rw [h1, h2]
  decide

/-- Claim C1 counterexample: with positive bin widths (1, 1/2, 2), magnitude
6, Joyner-Boore distance 1.7 and closest point (-3, 1), the code emits the
keys "6,2" and "-1,0", while the claim's floor formulas give "6,3" and
"-2,0": the emitted triple is not the claimed one. -/
theorem disaggregate_site_one_ne_claimed :
    disaggregate_site_one cexParams cexSite cexRupture 1 ≠
      some (claimed_mag_dist_key cexParams cexSite cexRupture,
        claimed_coordinate_key cexParams cexSite cexRupture, 1) := by
  rw [disaggregate_site_one_eq _ _ _ _ (by norm_num [cexParams])
    (by norm_num [cexParams]) (by norm_num [cexParams]),
    cex_code_mag_dist_key, cex_code_coordinate_key, cex_claimed_mag_dist_key,
    cex_claimed_coordinate_key]
  intro h
  rw [Option.some.injEq, Prod.mk.injEq] at h
  exact absurd h.1 (by decide)

/-- Claim C1 witness: the amended key computation at the counterexample's
concrete rupture and site. -/
theorem disaggregate_site_one_keys_witness :
    disaggregate_site_one cexParams cexSite cexRupture 1 =
      some (code_mag_dist_key cexParams cexSite cexRupture,
        code_coordinate_key cexParams cexSite cexRupture, 1) :=
  disaggregate_site_one_keys cexParams cexSite cexRupture 1
    (by norm_num [cexParams]) (by norm_num [cexParams])
    (by norm_num [cexParams])

/-- Claim C2 witness data. -/
def wSite : Site := ⟨1, 2⟩

/-- Claim C2 witness data. -/
def wRupture : Rupture :=
  { magnitude := 5
    jb_distance := fun _ => 3
    closest_lon := fun _ => 1
    closest_lat := fun _ => 2 }

/-- Claim C2 witness data: unit bin widths, one disaggregation site. -/
def wParams : CalcParams :=
  { sites_disagg := [⟨1, 2⟩]
    mag_bin_width := 1
    distance_bin_width := 1
    coordinate_bin_width := 1 }

/-- Claim C2 witness: the positional pairing at a concrete two-rupture
input. -/
theorem disaggregate_site_pairs_witness :
    disaggregate_site (fun _ => wRupture) wParams [10, 11] wSite [2, 3] =
      some (([(2 : ℚ), 3].zip [10, 11]).map fun p =>
        (code_mag_dist_key wParams wSite ((fun _ => wRupture) p.2),
         code_coordinate_key wParams wSite ((fun _ => wRupture) p.2), p.1)) :=
  disaggregate_site_pairs (fun _ => wRupture) wParams [10, 11] wSite [2, 3]
    (by norm_num [wParams]) (by norm_num [wParams]) (by norm_num [wParams])

theorem list_mapM_some_forall2 {α β : Type} {l : List α} {f : α → Option β}
    {ys : List β} (h : l.mapM f = some ys) :
    List.Forall₂ (fun a b => f a = some b) l ys := by
  induction l generalizing ys with
  | nil =>
    rw [List.mapM_nil] at h
    cases h
    exact List.Forall₂.nil
  | cons a t ih =>
    rw [List.mapM_cons] at h
    rcases Option.bind_eq_some.mp h with ⟨y, hy, h2⟩
    rcases Option.bind_eq_some.mp h2 with ⟨ts, hts, h3⟩
    cases h3
    exact List.Forall₂.cons hy (ih hts)

theorem forall2_mem_right {α β : Type} {R : α → β → Prop} {l : List α}
    {ys : List β} (h : List.Forall₂ R l ys) {b : β} (hb : b ∈ ys) :
    ∃ a ∈ l, R a b := by
  induction h with
  | nil => cases hb
  | cons hr _ ih =>
    rcases List.mem_cons.mp hb with rfl | hb2
    · exact ⟨_, List.mem_cons_self _ _, hr⟩
    · rcases ih hb2 with ⟨a, ha, hR⟩
      exact ⟨a, List.mem_cons_of_mem _ ha, hR⟩

theorem disaggregate_site_length {getR : ℕ → Rupture} {params : CalcParams}
    {rupture_ids : List ℕ} {site : Site} {losses : List ℚ}
    {row : List (String × String × ℚ)}
    (h : disaggregate_site getR params rupture_ids site losses = some row) :
    row.length = min losses.length rupture_ids.length := by
  have h2 := (list_mapM_some_forall2 h).length_eq
  rw [List.length_zip] at h2
  omega

/-- Claim C3: in any `DisaggregationOutputs` actually returned by
`disaggregate` (on a loss matrix whose rows match the rupture-id list), the
asset column is exactly each qualifying asset repeated once per rupture id,
the three data columns have the same length as the asset column, and an
asset whose site is not in `sites_disagg` never appears. -/
theorem disaggregate_alignment (getR : ℕ → Rupture) (assets : List Asset)
    (loss_matrix : List (List ℚ)) (rupture_ids : List ℕ) (params : CalcParams)
    (out : DisaggregationOutputs)
    (hrows : ∀ p ∈ assets.zip loss_matrix,
      (p : Asset × List ℚ).2.length = rupture_ids.length)
    (hsome : disaggregate getR assets loss_matrix rupture_ids params =
      some out) :
    out.assets_disagg = ((assets.zip loss_matrix).filter
        fun p => p.1.site ∈ params.sites_disagg).flatMap
        (fun p => List.replicate rupture_ids.length p.1) ∧
      out.magnitude_distance.length = out.assets_disagg.length ∧
      out.coordinate.length = out.assets_disagg.length ∧
      out.fractions.length = out.assets_disagg.length ∧
      ∀ a : Asset, a.site ∉ params.sites_disagg → a ∉ out.assets_disagg := by
  unfold disaggregate at hsome
  set q := (assets.zip loss_matrix).filter
    (fun p => decide (p.1.site ∈ params.sites_disagg)) with hq_def
  rcases Option.bind_eq_some.mp hsome with ⟨rows, hrows_eq, hbody⟩
  by_cases hq : q.isEmpty
  · rw [if_pos hq] at hbody
    have hqe : q = [] := List.isEmpty_iff.mp hq
    cases hbody
    refine ⟨?_, rfl, rfl, rfl, ?_⟩
    · rw [hqe]
      rfl
    · intro a _ hmem
      cases hmem
  · rw [if_neg hq] at hbody
    have hforall := list_mapM_some_forall2 hrows_eq
    have hrowlen : ∀ b ∈ rows, b.length = rupture_ids.length := by
      intro b hb
      rcases forall2_mem_right hforall hb with ⟨p, hp, hpb⟩
      have h1 := disaggregate_site_length hpb
      have h2 : p.2.length = rupture_ids.length :=
        hrows p (List.mem_of_mem_filter hp)
      rw [h1, h2, min_self]
    have hrows_len : rows.length = q.length := hforall.length_eq.symm
    have hmatlen : rows.flatten.length = q.length * rupture_ids.length := by
      rw [List.length_flatten]
      have hrep : rows.map List.length =
          List.replicate rows.length rupture_ids.length :=
        List.eq_replicate_iff.mpr ⟨by simp, by
          intro b hb
          rcases List.mem_map.mp hb with ⟨r, hr, rfl⟩
          exact hrowlen r hr⟩
      rw [hrep, List.sum_replicate, smul_eq_mul, hrows_len]
    have hadlen : (q.flatMap fun p =>
        List.replicate rupture_ids.length p.1).length =
        q.length * rupture_ids.length := by
      rw [List.length_flatMap]
      simp only [Function.comp_def]
      have hrep : (q.map fun p =>
          (List.replicate rupture_ids.length p.1).length) =
          List.replicate q.length rupture_ids.length :=
        List.eq_replicate_iff.mpr ⟨by simp, by
          intro b hb
          rcases List.mem_map.mp hb with ⟨p, _, rfl⟩
          exact List.length_replicate _ _⟩
      rw [hrep, List.sum_replicate, smul_eq_mul]
    by_cases hmat : rows.flatten.isEmpty
    · rw [if_pos hmat] at hbody
      cases hbody
    · rw [if_neg hmat] at hbody
      cases hbody
      refine ⟨rfl, ?_, ?_, ?_, ?_⟩
      · show (rows.flatten.map fun t => t.1).length = _
        rw [List.length_map, hmatlen, hadlen]
      · show (rows.flatten.map fun t => t.2.1).length = _
        rw [List.length_map, hmatlen, hadlen]
      · show (rows.flatten.map fun t => t.2.2).length = _
        rw [List.length_map, hmatlen, hadlen]
      · intro a ha hmem
        rcases List.mem_flatMap.mp hmem with ⟨p, hp, hmem2⟩
        have hap := List.eq_of_mem_replicate hmem2
        have hfp := (List.mem_filter.mp hp).2
        rw [hap] at ha
        exact ha (of_decide_eq_true hfp)

/-- Claim C3 witness data: an asset at the disaggregation site. -/
def wAsset1 : Asset := ⟨1, wSite⟩

/-- Claim C3 witness data: an asset away from the disaggregation site. -/
def wAsset2 : Asset := ⟨2, ⟨9, 9⟩⟩

theorem w_code_mag_dist_key : code_mag_dist_key wParams wSite wRupture =
    "5,3" := by
  unfold code_mag_dist_key
  have h1 : ⌊wRupture.magnitude / wParams.mag_bin_width⌋ = 5 := by
    norm_num [wRupture, wParams]
  have h2 : ⌊wRupture.jb_distance wSite⌋ = 3 := by
    norm_num [wRupture]
  have h3 : pyInt (((3 : ℤ) : ℚ) / wParams.distance_bin_width) = 3 := by
    unfold pyInt
    rw [if_pos (by norm_num [wParams])]
    norm_num [wParams]
  rw [h1, h2, h3]
  decide

theorem w_code_coordinate_key : code_coordinate_key wParams wSite wRupture =
    "1,2" := by
  unfold code_coordinate_key
  have h1 : pyInt (wRupture.closest_lon wSite /
      wParams.coordinate_bin_width) = 1 := by
    unfold pyInt
    rw [if_pos (by norm_num [wRupture, wParams])]
    norm_num [wRupture, wParams]
  have h2 : pyInt (wRupture.closest_lat wSite /
      wParams.coordinate_bin_width) = 2 := by
    unfold pyInt
    rw [if_pos (by norm_num [wRupture, wParams])]
    norm_num [wRupture, wParams]
  rw [h1, h2]
  decide

theorem w_disaggregate_site :
    disaggregate_site (fun _ => wRupture) wParams [10, 11] wSite [2, 3] =
      some [("5,3", "1,2", 2), ("5,3", "1,2", 3)] := by
  unfold disaggregate_site
  rw [list_mapM_eq_map _ _
    (fun p : ℚ × ℕ => (code_mag_dist_key wParams wSite wRupture,
      code_coordinate_key wParams wSite wRupture, p.1))
    (fun p _ => disaggregate_site_one_eq wParams wSite wRupture p.1
      (by norm_num [wParams]) (by norm_num [wParams])
      (by norm_num [wParams]))]
  simp only [w_code_mag_dist_key, w_code_coordinate_key]
  rfl

theorem w_disaggregate_eval :
    disaggregate (fun _ => wRupture) [wAsset1, wAsset2] [[2, 3], [4, 5]]
        [10, 11] wParams =
      some ⟨[wAsset1, wAsset1], ["5,3", "5,3"], ["1,2", "1,2"], [2, 3]⟩ := by
  unfold disaggregate
  have hfil : ([wAsset1, wAsset2].zip [[(2 : ℚ), 3], [4, 5]]).filter
      (fun p => decide (p.1.site ∈ wParams.sites_disagg)) =
      [(wAsset1, [2, 3])] := by decide
  rw [hfil]
  have hmapm : [(wAsset1, [(2 : ℚ), 3])].mapM
      (fun p => disaggregate_site (fun _ => wRupture) wParams [10, 11]
        p.1.site p.2) =
      some [[("5,3", "1,2", 2), ("5,3", "1,2", 3)]] := by
    rw [List.mapM_cons, List.mapM_nil]
    have harg : disaggregate_site (fun _ => wRupture) wParams [10, 11]
        (wAsset1, [(2 : ℚ), 3]).1.site (wAsset1, [(2 : ℚ), 3]).2 =
        some [("5,3", "1,2", 2), ("5,3", "1,2", 3)] := w_disaggregate_site
    rw [harg]
    rfl
  simp only [hmapm]
  rfl

/-- Claim C3 witness: the alignment statement at a concrete two-asset,
two-rupture input in which only the first asset sits at a disaggregation
site. -/
theorem disaggregate_alignment_witness :
    ([wAsset1, wAsset1] : List Asset) =
        (([wAsset1, wAsset2].zip [[(2 : ℚ), 3], [4, 5]]).filter
          fun p => p.1.site ∈ wParams.sites_disagg).flatMap
          (fun p => List.replicate ([10, 11] : List ℕ).length p.1) ∧
      (["5,3", "5,3"] : List String).length =
        ([wAsset1, wAsset1] : List Asset).length ∧
      (["1,2", "1,2"] : List String).length =
        ([wAsset1, wAsset1] : List Asset).length ∧
      ([(2 : ℚ), 3] : List ℚ).length =
        ([wAsset1, wAsset1] : List Asset).length ∧
      ∀ a : Asset, a.site ∉ wParams.sites_disagg →
        a ∉ ([wAsset1, wAsset1] : List Asset) :=
  disaggregate_alignment (fun _ => wRupture) [wAsset1, wAsset2]
    [[2, 3], [4, 5]] [10, 11] wParams
    ⟨[wAsset1, wAsset1], ["5,3", "5,3"], ["1,2", "1,2"], [2, 3]⟩
    (by decide) w_disaggregate_eval

/-!
## Task results and post-processing

`do_event_based` (lines 74-107) and `EventBasedRiskCalculator.post_process`
(lines 326-389).  The `workflows.CalculationUnit` call, the statistics
engine and every database write are external collaborators: the unit's
outputs and statistics are inputs of the model, and the created
`AggregateLossCurveData` row records the arguments the code hands over.
-/

/-- One per-hazard-output bundle produced by the calculation unit
(`out` in `do_event_based`): its hazard output id, assets, loss matrix and
event loss table. -/
structure UnitOutput where
  hid : ℕ
  assets : List Asset
  loss_matrix : List (List ℚ)
  event_loss_table : Counter

/-- The statistics bundle (`stats`), of which only the event loss table is
consumed by `do_event_based`'s return value. -/
structure StatisticalOutput where
  event_loss_table : Counter

/-- `do_event_based(unit, containers, params, profile)`.  The unit call and
the output saving are external; the returned pair is (was the
"Exit from task as no asset could be processed" message logged, the event
loss table returned for this loss type).  `none` models an exception
escaping `disaggregate`.  `rupture_ids = out.output.event_loss_table.keys()`
enumerates the dictionary keys; the model enumerates them in ascending
order. -/
def do_event_based (getR : ℕ → Rupture) (outputs : List UnitOutput)
    (stats : Option StatisticalOutput) (params : CalcParams) :
    Option (Bool × Counter) :=
  match outputs with
  | [] => some (true, Counter.empty)
  | o :: rest => do
      let _ ← (o :: rest).mapM fun out =>
        if params.sites_disagg.isEmpty then
          some (⟨[], [], [], []⟩ : DisaggregationOutputs)
        else
          disaggregate getR out.assets out.loss_matrix
            (out.event_loss_table.keys.sort (· ≤ ·)) params
      match stats with
      | some st => some (false, st.event_loss_table)
      | none => some (false, o.event_loss_table)

/-- Claim C8: with zero processable outputs, `do_event_based` logs the
informational message and returns the empty `collections.Counter()`; it
neither raises nor returns an exceptional value. -/
theorem do_event_based_empty (getR : ℕ → Rupture)
    (stats : Option StatisticalOutput) (params : CalcParams) :
    do_event_based getR [] stats params = some (true, Counter.empty) := rfl

/-- `numpy.std(xs) ** 2` over exact rationals: the mean of the squared
deviations from the mean (numpy's default `ddof=0`). -/
def numpy_std_sq (xs : List ℚ) : ℚ :=
  (xs.map fun x => (x - xs.sum / (xs.length : ℚ)) ^ 2).sum / (xs.length : ℚ)

/-- The population variance in its textbook `E[X^2] - E[X]^2` form, the
square of the population standard deviation named by the spec. -/
def pop_variance (xs : List ℚ) : ℚ :=
  (xs.map fun x => x ^ 2).sum / (xs.length : ℚ) -
    (xs.sum / (xs.length : ℚ)) ^ 2

theorem sum_sq_sub (c : ℚ) (xs : List ℚ) :
    (xs.map fun x => (x - c) ^ 2).sum =
      (xs.map fun x => x ^ 2).sum - 2 * c * xs.sum +
        (xs.length : ℚ) * c ^ 2 := by
  induction xs with
  | nil => simp
  | cons a t ih =>
    simp only [List.map_cons, List.sum_cons, List.length_cons]
    rw [ih]
    push_cast
    ring

theorem numpy_std_sq_eq_pop_variance (xs : List ℚ) (h : xs ≠ []) :
    numpy_std_sq xs = pop_variance xs := by
  have hn : (xs.length : ℚ) ≠ 0 := by
    have h1 : 0 < xs.length := List.length_pos.mpr h
    exact_mod_cast Nat.pos_iff_ne_zero.mp h1
  unfold numpy_std_sq pop_variance
  rw [sum_sq_sub]
  field_simp
  ring

/-- One hazard output (realization): the ids returned by the
`SESRupture.objects.filter(ses__ses_collection__lt_realization=...)`
database query, i.e. the rupture ids belonging to its logic-tree
realization. -/
structure HazardOutput where
  rupture_ids : List ℕ

/-- The timing configuration read by `hazard_times`: the risk calculation's
investigation time, the hazard calculation's investigation time and its
`ses_per_logic_tree_path`. -/
structure CalcTimes where
  rc_investigation_time : ℚ
  hc_investigation_time : ℚ
  ses_per_logic_tree_path : ℕ

/-- `EventBasedRiskCalculator.hazard_times`: the pair
`(time_span, tses) = (rc.investigation_time,
hc.ses_per_logic_tree_path * hc.investigation_time)`. -/
def hazard_times (t : CalcTimes) : ℚ × ℚ :=
  (t.rc_investigation_time,
    (t.ses_per_logic_tree_path : ℚ) * t.hc_investigation_time)

/-- The `AggregateLossCurveData` row created for one (loss type, hazard
output) pair: the list of aggregate losses and the `tses` / `time_span`
handed to `scientific.event_based` (the external curve builder), and the
stored standard deviation `stddev_loss = numpy.std(aggregate_losses)`,
kept as its square `stddev_sq = stddev_loss ** 2` so that every value stays
rational. -/
structure AggregateLossCurveData where
  losses_arg : List ℚ
  tses_arg : ℚ
  time_span_arg : ℚ
  stddev_sq : ℚ

/-- The body of `post_process` for one (loss type, hazard output) pair:
collect `event_loss_table[rupture_id]` over the realization's rupture ids
recorded in the table, and create the aggregate loss curve only when that
list is non-empty.  `none` means no `AggregateLossCurveData` row is created
for this realization, which is a normal, non-error outcome. -/
def post_process_one (elt : Counter) (ho : HazardOutput) (t : CalcTimes) :
    Option AggregateLossCurveData :=
  if ((ho.rupture_ids.filter fun r => r ∈ elt.keys).map elt.get).isEmpty then
    none
  else
    some { losses_arg := (ho.rupture_ids.filter fun r => r ∈ elt.keys).map
             elt.get
           tses_arg := (hazard_times t).2
           time_span_arg := (hazard_times t).1
           stddev_sq := numpy_std_sq
             ((ho.rupture_ids.filter fun r => r ∈ elt.keys).map elt.get) }

/-- The `post_process` loop over the hazard outputs, for one loss type. -/
def post_process (elt : Counter) (houts : List HazardOutput) (t : CalcTimes) :
    List (Option AggregateLossCurveData) :=
  houts.map fun ho => post_process_one elt ho t

/-- Claim C6: when no rupture of the realization has an entry in the event
loss table, `post_process` creates no aggregate loss curve for it, and the
empty case is handled without an error (the function is total and simply
yields nothing). -/
theorem post_process_one_no_curve (elt : Counter) (ho : HazardOutput)
    (t : CalcTimes) (h : ∀ r ∈ ho.rupture_ids, r ∉ elt.keys) :
    post_process_one elt ho t = none ∧
      post_process elt [ho] t = [none] := by
  have hfil : ho.rupture_ids.filter (fun r => decide (r ∈ elt.keys)) = [] := by
    rw [List.filter_eq_nil_iff]
    intro a ha
    simp only [decide_eq_true_eq]
    exact h a ha
  have h1 : post_process_one elt ho t = none := by
    unfold post_process_one
    rw [hfil]
    rfl
  exact ⟨h1, by unfold post_process; rw [List.map_cons, h1]; rfl⟩

/-- Claim C6 witness: an empty event loss table against a realization with
ruptures 1, 2, 3. -/
theorem post_process_one_no_curve_witness :
    post_process_one Counter.empty ⟨[1, 2, 3]⟩ ⟨1, 1, 1⟩ = none ∧
      post_process Counter.empty [⟨[1, 2, 3]⟩] ⟨1, 1, 1⟩ = [none] :=
  post_process_one_no_curve Counter.empty ⟨[1, 2, 3]⟩ ⟨1, 1, 1⟩ (by decide)

/-- Claim C7: when some rupture of the realization is recorded in the event
loss table, the curve builder is invoked on exactly the recorded losses of
the realization's ruptures (absent ruptures skipped), with
`tses = ses_per_logic_tree_path * investigation_time`, with
`time_span = rc.investigation_time`, and the stored standard deviation is
the population standard deviation of the raw aggregate-loss list (stated on
squares: `stddev_sq` equals the population variance). -/
theorem post_process_one_curve (elt : Counter) (ho : HazardOutput)
    (t : CalcTimes)
    (h : ho.rupture_ids.filter (fun r => r ∈ elt.keys) ≠ []) :
    post_process_one elt ho t =
      some { losses_arg := (ho.rupture_ids.filter fun r => r ∈ elt.keys).map
               elt.get
             tses_arg := (t.ses_per_logic_tree_path : ℚ) *
               t.hc_investigation_time
             time_span_arg := t.rc_investigation_time
             stddev_sq := pop_variance
               ((ho.rupture_ids.filter fun r => r ∈ elt.keys).map elt.get) }
    := by
  have hne : (ho.rupture_ids.filter fun r => r ∈ elt.keys).map elt.get ≠ []
    := by
    intro h0
    exact h (List.map_eq_nil_iff.mp h0)
  unfold post_process_one
  rw [if_neg (by simpa [List.isEmpty_iff] using hne),
    numpy_std_sq_eq_pop_variance _ hne]
  rfl

/-- Claim C7 witness data: losses 3 and 5 recorded for ruptures 1 and 2. -/
def wTable : Counter := ⟨{1, 2}, fun x => if x = 1 then 3 else 5⟩

/-- Claim C7 witness: realization with ruptures 1, 2, 9 of which 1 and 2 are
recorded. -/
theorem post_process_one_curve_witness :
    post_process_one wTable ⟨[1, 2, 9]⟩ ⟨2, 3, 4⟩ =
      some { losses_arg := (([1, 2, 9] : List ℕ).filter
               fun r => r ∈ wTable.keys).map wTable.get
             tses_arg := ((4 : ℕ) : ℚ) * 3
             time_span_arg := 2
             stddev_sq := pop_variance ((([1, 2, 9] : List ℕ).filter
               fun r => r ∈ wTable.keys).map wTable.get) } :=
  post_process_one_curve wTable ⟨[1, 2, 9]⟩ ⟨2, 3, 4⟩ (by decide)

/-!
## Configuration validation

`EventBasedRiskCalculator.validators` (lines 291-294) extends the base
`RiskCalculator` validators with `validation.RequireEventBasedHazard` and
`validation.ExposureHasInsuranceBounds`.
-/

/-- Modelled from the spec: the configuration facets inspected by the
validators named in `EventBasedRiskCalculator.validators`, plus the
disaggregation parameters (`calculator_parameters`).  The validator classes
themselves (`openquake/engine/calculators/risk/validation.py` and the base
`RiskCalculator.validators`) are outside this repository slice. -/
structure JobConfig where
  hazard_is_event_based : Bool
  exposure_insurance_ok : Bool
  sites_disagg : List Site
  mag_bin_width : ℚ
  distance_bin_width : ℚ
  coordinate_bin_width : ℚ

/-- Modelled from the spec: `RequireEventBasedHazard` passes exactly when
the hazard calculation is event based. -/
def requireEventBasedHazard (cfg : JobConfig) : Bool :=
  cfg.hazard_is_event_based

/-- Modelled from the spec: `ExposureHasInsuranceBounds` passes exactly when
the exposure model carries the insurance bounds the calculation needs. -/
def exposureHasInsuranceBounds (cfg : JobConfig) : Bool :=
  cfg.exposure_insurance_ok

/-- The validation performed before any task runs: every validator of
`EventBasedRiskCalculator.validators` must pass.  No validator in the list
inspects the bin widths (the code even carries a FIXME about the missing
`sites_disagg` validation). -/
def validators_pass (cfg : JobConfig) : Bool :=
  requireEventBasedHazard cfg && exposureHasInsuranceBounds cfg

/-- `EventBasedRiskCalculator.calculator_parameters`: the `CalcParams`
snapshot handed to the tasks, taken verbatim from the configuration. -/
def calculator_parameters (cfg : JobConfig) : CalcParams :=
  { sites_disagg := cfg.sites_disagg
    mag_bin_width := cfg.mag_bin_width
    distance_bin_width := cfg.distance_bin_width
    coordinate_bin_width := cfg.coordinate_bin_width }

/-- Claim C9 failing input: a configuration with `mag_bin_width = 0` and a
disaggregation site configured. -/
def zeroWidthConfig : JobConfig :=
  { hazard_is_event_based := true
    exposure_insurance_ok := true
    sites_disagg := [⟨0, 0⟩]
    mag_bin_width := 0
    distance_bin_width := 1
    coordinate_bin_width := 1 }

/-- Claim C9 failing input: any rupture reached by the task. -/
def zeroWidthRupture : Rupture :=
  ⟨6, fun _ => 1, fun _ => 1, fun _ => 1⟩

/-- Claim C9: a configuration with a zero bin width is *not* rejected at
validation time — every validator passes — and the failure instead happens
inside `disaggregate_site` when a task disaggregates the first rupture
(`rupture.magnitude / params.mag_bin_width` raises `ZeroDivisionError`,
modelled by `none`); the full `disaggregate` call on an asset at the
disaggregation site propagates it. -/
theorem zero_bin_width_passes_validation :
    validators_pass zeroWidthConfig = true ∧
      disaggregate_site_one (calculator_parameters zeroWidthConfig) ⟨0, 0⟩
        zeroWidthRupture 1 = none ∧
      disaggregate (fun _ => zeroWidthRupture) [⟨1, ⟨0, 0⟩⟩] [[1]] [5]
        (calculator_parameters zeroWidthConfig) = none := by
  refine ⟨rfl, ?_, ?_⟩
  · unfold disaggregate_site_one
    rw [if_pos (Or.inl (show (calculator_parameters zeroWidthConfig).mag_bin_width = 0 from rfl))]
  · unfold disaggregate
    have hmapm : ([((⟨1, ⟨0, 0⟩⟩ : Asset), [(1 : ℚ)])].mapM
        fun p => disaggregate_site (fun _ => zeroWidthRupture)
          (calculator_parameters zeroWidthConfig) [5] p.1.site p.2) =
        none := by
      rw [List.mapM_cons]
      have hsite : disaggregate_site (fun _ => zeroWidthRupture)
          (calculator_parameters zeroWidthConfig) [5]
          (⟨1, ⟨0, 0⟩⟩ : Asset).site [(1 : ℚ)] = none := by
        unfold disaggregate_site
        have hz : (([(1 : ℚ)]).zip ([5] : List ℕ)) = [((1 : ℚ), (5 : ℕ))] :=
          rfl
        rw [hz, List.mapM_cons]
        have hone : disaggregate_site_one
            (calculator_parameters zeroWidthConfig) (⟨1, ⟨0, 0⟩⟩ : Asset).site
            ((fun _ => zeroWidthRupture) (((1 : ℚ), (5 : ℕ)) : ℚ × ℕ).2)
            (((1 : ℚ), (5 : ℕ)) : ℚ × ℕ).1 = none := by
          unfold disaggregate_site_one
          rw [if_pos (Or.inl (show (calculator_parameters zeroWidthConfig).mag_bin_width = 0 from rfl))]
        rw [hone]
        rfl
      rw [hsite]
      rfl
    have hfil : ([(⟨1, ⟨0, 0⟩⟩ : Asset)].zip [[(1 : ℚ)]]).filter
        (fun p => decide (p.1.site ∈
          (calculator_parameters zeroWidthConfig).sites_disagg)) =
        [(⟨1, ⟨0, 0⟩⟩, [1])] := by decide
    rw [hfil]
    simp only [hmapm]
    rfl

/-!
## The hazard restore tool (`tools/restore_hazards.py`)

A database connection is modelled by its committed rows plus the open
transaction's pending rows (each row a (table name, id) pair).
`safe_restore` stages the new-id lines of one gzipped table file onto the
pending list via `curs.copy_from` — also when it fails part way, since its
`finally` clause copies the current buffer before the exception propagates.
`hazard_restore` walks the files listed in FILENAMES.txt inside a
`try/except/else`: any exception triggers `conn.rollback()` and re-raises,
and `conn.commit()` runs only after the loop finishes.  A file with
`fail_after = some k` models an exception (extraction, decompression or
parse error) raised after k of its lines were read.
-/

/-- A psycopg2 connection: committed table rows and the rows copied in the
open transaction but not yet committed. -/
structure DBConn where
  committed : List (String × ℤ)
  pending : List (String × ℤ)

/-- `select id from tablename` inside the open transaction: it sees the
committed rows and the rows already copied by this same transaction. -/
def DBConn.table_ids (c : DBConn) (tname : String) : List ℤ :=
  ((c.committed ++ c.pending).filter fun row => row.1 = tname).map
    fun row => row.2

/-- `conn.rollback()`: discard the transaction's pending rows. -/
def DBConn.rollback (c : DBConn) : DBConn := ⟨c.committed, []⟩

/-- `conn.commit()`: make the pending rows permanent. -/
def DBConn.commit (c : DBConn) : DBConn := ⟨c.committed ++ c.pending, []⟩

/-- One `tablename.csv.gz` member of the tar file: the table it belongs to,
the ids of its lines, and `fail_after = some k` when reading it raises after
k lines. -/
structure GzFile where
  tname : String
  line_ids : List ℤ
  fail_after : Option ℕ

/-- `safe_restore(curs, gzfile, tablename)`: snapshot the existing ids, then
stage every read line whose id is not already taken.  On failure the lines
read so far are still staged (block copies plus the `finally` clause) and
the exception is reported. -/
def safe_restore (c : DBConn) (f : GzFile) : DBConn × Option String :=
  let ids := c.table_ids f.tname
  let upto := match f.fail_after with
    | none => f.line_ids.length
    | some k => min k f.line_ids.length
  let staged := (f.line_ids.take upto).filter fun i => i ∉ ids
  (⟨c.committed, c.pending ++ staged.map fun i => (f.tname, i)⟩,
    match f.fail_after with
    | none => none
    | some _ => some "error")

/-- The `for line in tf.extractfile('hazard_calculation/FILENAMES.txt')`
loop of `hazard_restore`: restore file after file, stopping at the first
exception. -/
def restore_loop (c : DBConn) : List GzFile → DBConn × Option String
  | [] => (c, none)
  | f :: fs =>
    match safe_restore c f with
    | (c1, some e) => (c1, some e)
    | (c1, none) => restore_loop c1 fs

/-- The staging effect of the loop alone (what a fully successful run leaves
pending before the commit). -/
def restore_stage (c : DBConn) : List GzFile → DBConn
  | [] => c
  | f :: fs => restore_stage (safe_restore c f).1 fs

/-- `hazard_restore(conn, tar)`: run the loop inside `try/except/else` — on
an exception roll back and re-raise (second component), otherwise commit. -/
def hazard_restore (c : DBConn) (files : List GzFile) :
    DBConn × Option String :=
  match restore_loop c files with
  | (c1, some e) => (c1.rollback, some e)
  | (c1, none) => (c1.commit, none)

theorem safe_restore_committed (c : DBConn) (f : GzFile) :
    (safe_restore c f).1.committed = c.committed := rfl

theorem safe_restore_err (c : DBConn) (f : GzFile) :
    (safe_restore c f).2 = none ↔ f.fail_after = none := by
  unfold safe_restore
  cases f.fail_after <;> simp

theorem restore_loop_committed (c : DBConn) (files : List GzFile) :
    (restore_loop c files).1.committed = c.committed := by
  induction files generalizing c with
  | nil => rfl
  | cons f fs ih =>
    unfold restore_loop
    rcases hsf : safe_restore c f with ⟨c1, r⟩
    have hc1 : c1.committed = c.committed := by
      rw [show c1 = (safe_restore c f).1 by rw [hsf]]
      exact safe_restore_committed c f
    cases r with
    | none =>
      show (restore_loop c1 fs).1.committed = c.committed
      rw [ih c1, hc1]
    | some e => exact hc1

theorem restore_loop_none_iff (c : DBConn) (files : List GzFile) :
    (restore_loop c files).2 = none ↔ ∀ f ∈ files, f.fail_after = none := by
  induction files generalizing c with
  | nil => simp [restore_loop]
  | cons f fs ih =>
    unfold restore_loop
    rcases hsf : safe_restore c f with ⟨c1, r⟩
    have hr : r = none ↔ f.fail_after = none := by
      rw [show r = (safe_restore c f).2 by rw [hsf]]
      exact safe_restore_err c f
    cases r with
    | some e =>
      show some e = none ↔ _
      simp only [reduceCtorEq, false_iff]
      intro hall
      have := (hr.mpr (hall f (List.mem_cons_self f fs)))
      cases this
    | none =>
      show (restore_loop c1 fs).2 = none ↔ _
      rw [ih c1]
      constructor
      · intro hall g hg
        rcases List.mem_cons.mp hg with rfl | hg2
        · exact hr.mp rfl
        · exact hall g hg2
      · intro hall g hg
        exact hall g (List.mem_cons_of_mem f hg)

theorem restore_loop_eq_stage (c : DBConn) (files : List GzFile)
    (h : (restore_loop c files).2 = none) :
    (restore_loop c files).1 = restore_stage c files := by
  induction files generalizing c with
  | nil => rfl
  | cons f fs ih =>
    unfold restore_loop at h ⊢
    unfold restore_stage
    rcases hsf : safe_restore c f with ⟨c1, r⟩
    rw [hsf] at h
    cases r with
    | some e => exact Option.noConfusion h
    | none => exact ih c1 h

/-- Claim C10: `hazard_restore` is atomic.  If any exception is raised while
restoring the tar's tables, the connection ends rolled back — the committed
rows are exactly the ones committed before the call and nothing is left
pending — and the exception propagates; the run succeeds exactly when every
file restores without an exception, and only then is the transaction
committed, in one final `conn.commit()` covering every staged row. -/
theorem hazard_restore_atomic (c : DBConn) (files : List GzFile) :
    ((hazard_restore c files).2.isSome →
        (hazard_restore c files).1.committed = c.committed ∧
          (hazard_restore c files).1.pending = []) ∧
      ((hazard_restore c files).2 = none ↔
        ∀ f ∈ files, f.fail_after = none) ∧
      ((hazard_restore c files).2 = none →
        hazard_restore c files = ((restore_stage c files).commit, none)) := by
  unfold hazard_restore
  rcases hloop : restore_loop c files with ⟨c1, r⟩
  have hc1 : c1.committed = c.committed := by
    rw [show c1 = (restore_loop c files).1 by rw [hloop]]
    exact restore_loop_committed c files
  have hiff : r = none ↔ ∀ f ∈ files, f.fail_after = none := by
    rw [show r = (restore_loop c files).2 by rw [hloop]]
    exact restore_loop_none_iff c files
  cases r with
  | some e =>
    refine ⟨fun _ => ⟨hc1, rfl⟩, ?_, ?_⟩
    · show some e = none ↔ _
      rw [← hiff]
    · intro habs
      cases habs
  | none =>
    refine ⟨fun habs => Bool.noConfusion habs, ?_, ?_⟩
    · show (none : Option String) = none ↔ _
      rw [← hiff]
    · intro _
      have hstage : c1 = restore_stage c files := by
        rw [show c1 = (restore_loop c files).1 by rw [hloop]]
        exact restore_loop_eq_stage c files (by rw [hloop])
      rw [hstage]

/-- Claim C10 witness data: one committed row. -/
def wConn : DBConn := ⟨[("hzrdr.gmf", 1)], []⟩

/-- Claim C10 witness data: a file whose second line raises. -/
def wFailFile : GzFile := ⟨"hzrdr.gmf", [2, 3], some 1⟩

/-- Claim C10 witness data: a file that restores cleanly. -/
def wGoodFile : GzFile := ⟨"hzrdr.gmf", [2, 3], none⟩

/-- Claim C10 witness: a failing restore leaves the pre-call committed rows
and no pending rows; a clean restore commits exactly the staged rows. -/
theorem hazard_restore_atomic_witness :
    ((hazard_restore wConn [wFailFile]).1.committed = wConn.committed ∧
        (hazard_restore wConn [wFailFile]).1.pending = []) ∧
      hazard_restore wConn [wGoodFile] =
        ((restore_stage wConn [wGoodFile]).commit, none) :=
  ⟨(hazard_restore_atomic wConn [wFailFile]).1 (by decide),
    (hazard_restore_atomic wConn [wGoodFile]).2.2 (by decide)⟩

end OQ
